import Mathlib

/-!
Verification of the zoom-control logic of
`src/packages/desktop/src-tauri/src/lib.rs` (the `paseo` desktop shell).

The Rust code keeps one piece of shared state, the atomic
`ZOOM_LEVEL : AtomicU64`, holding the zoom factor in hundredths
(`f64 * 100 as integer`), initialised to `100`.

Modelling conventions:
* `f64` arithmetic is modelled by exact rational arithmetic in `ℚ`
  (every constant in the program — `0.5`, `3.0`, `0.1`, `1.0`, `100.0` —
  is an exact decimal, and the operations are `+`, `-`, `*`, `/`, `clamp`);
* the `(clamped * 100.0) as u64` cast truncates toward zero, which on the
  non-negative values arising here is `Int.toNat ∘ Int.floor`;
* the webview window is modelled by the `Result` its `set_zoom` call
  returns (an `Except String Unit` supplied by the environment) and by
  recording the factors passed to `webview.set_zoom`.
-/

namespace Paseo

/-- `static ZOOM_LEVEL: AtomicU64 = AtomicU64::new(100);` — the content of
the atomic at program start. -/
def ZOOM_LEVEL_init : Nat := 100

/-- `fn get_zoom_factor() -> f64 { ZOOM_LEVEL.load(Ordering::Relaxed) as f64 / 100.0 }`,
as a function of the current content of `ZOOM_LEVEL`. -/
def get_zoom_factor (level : Nat) : ℚ :=
  (level : ℚ) / 100

/-- `fn set_zoom_factor(webview: &WebviewWindow, factor: f64)`:
`factor.clamp(0.5, 3.0)` (Rust `clamp`: below the lower bound gives the
lower bound, above the upper bound gives the upper bound, otherwise the
value itself), then `ZOOM_LEVEL.store((clamped * 100.0) as u64, Relaxed)`,
then `let _ = webview.set_zoom(clamped);` — the `Result` of `set_zoom`
(`setZoomRes` here) is discarded and flows nowhere.
Returns the new content of `ZOOM_LEVEL` and the factor that was passed to
`webview.set_zoom`. -/
def set_zoom_factor (setZoomRes : Except String Unit) (factor : ℚ) : Nat × ℚ :=
  let clamped : ℚ := if factor < 1/2 then 1/2 else if 3 < factor then 3 else factor
  ((Int.floor (clamped * 100)).toNat, clamped)

/-- The closure registered by `app.on_menu_event`: dispatch on
`event.id().as_ref()`.  Given the result the webview would return from
`set_zoom`, the current content of `ZOOM_LEVEL` and the menu-item
identifier, returns the new content of `ZOOM_LEVEL` together with the
list of factors passed to `webview.set_zoom` while handling the event. -/
def on_menu_event (setZoomRes : Except String Unit) (level : Nat) (id : String) :
    Nat × List ℚ :=
  if id = "zoom_in" then
    let current := get_zoom_factor level
    let r := set_zoom_factor setZoomRes (current + 1/10)
    (r.1, [r.2])
  else if id = "zoom_out" then
    let current := get_zoom_factor level
    let r := set_zoom_factor setZoomRes (current - 1/10)
    (r.1, [r.2])
  else if id = "zoom_reset" then
    let r := set_zoom_factor setZoomRes 1
    (r.1, [r.2])
  else
    (level, [])

/-- Running a sequence of menu events from program start.  Each event is a
menu-item identifier together with the result `webview.set_zoom` returns
while that event is handled. -/
def run_menu_events (evs : List (String × Except String Unit)) : Nat :=
  evs.foldl (fun lvl ev => (on_menu_event ev.2 lvl ev.1).1) ZOOM_LEVEL_init

/-- Rust's `factor.clamp(0.5, 3.0)` agrees with `min (max factor 0.5) 3`. -/
theorem clamp_ite_eq_min_max (x : ℚ) :
    (if x < 1/2 then (1/2 : ℚ) else if 3 < x then 3 else x) = min (max x (1/2)) 3 := by
  rcases lt_or_ge x (1/2) with h | h
  · rw [if_pos h, max_eq_right h.le, min_eq_left (by norm_num)]
  · rw [if_neg (not_lt.mpr h), max_eq_left h]
    rcases lt_or_ge 3 x with h3 | h3
    · rw [if_pos h3, min_eq_right h3.le]
    · rw [if_neg (not_lt.mpr h3), min_eq_left h3]

/-- The clamped factor lies in `[1/2, 3]`. -/
theorem clamp_mem (x : ℚ) :
    1/2 ≤ (if x < 1/2 then (1/2 : ℚ) else if 3 < x then 3 else x) ∧
      (if x < 1/2 then (1/2 : ℚ) else if 3 < x then 3 else x) ≤ 3 := by
  split_ifs with h1 h2
  · norm_num
  · norm_num
  · exact ⟨not_lt.mp h1, not_lt.mp h2⟩

/-- A factor in `[1/2, 3]` is stored as a level in `[50, 300]`. -/
theorem level_of_clamped_mem {c : ℚ} (h1 : 1/2 ≤ c) (h2 : c ≤ 3) :
    50 ≤ (Int.floor (c * 100)).toNat ∧ (Int.floor (c * 100)).toNat ≤ 300 := by
  have hlo : (50 : ℤ) ≤ Int.floor (c * 100) := by
    rw [Int.le_floor]; push_cast; linarith
  have hhi : Int.floor (c * 100) ≤ 300 := by
    have hle : (Int.floor (c * 100) : ℚ) ≤ 300 := by
      have := Int.floor_le (c * 100)
      linarith
    exact_mod_cast hle
  omega

/-- `set_zoom_factor` always leaves `ZOOM_LEVEL` in `[50, 300]`. -/
theorem set_zoom_factor_level_mem (res : Except String Unit) (f : ℚ) :
    50 ≤ (set_zoom_factor res f).1 ∧ (set_zoom_factor res f).1 ≤ 300 := by
  have h := clamp_mem f
  exact level_of_clamped_mem h.1 h.2

/-- Each menu event preserves `ZOOM_LEVEL ∈ [50, 300]`. -/
theorem on_menu_event_level_mem (res : Except String Unit) (lvl : Nat) (id : String)
    (h1 : 50 ≤ lvl) (h2 : lvl ≤ 300) :
    50 ≤ (on_menu_event res lvl id).1 ∧ (on_menu_event res lvl id).1 ≤ 300 := by
  unfold on_menu_event
  split_ifs
  · exact set_zoom_factor_level_mem res _
  · exact set_zoom_factor_level_mem res _
  · exact set_zoom_factor_level_mem res _
  · exact ⟨h1, h2⟩

/-- Folding any event sequence from a level in `[50, 300]` stays in `[50, 300]`. -/
theorem foldl_level_mem (evs : List (String × Except String Unit)) (lvl : Nat)
    (h1 : 50 ≤ lvl) (h2 : lvl ≤ 300) :
    50 ≤ evs.foldl (fun l ev => (on_menu_event ev.2 l ev.1).1) lvl ∧
      evs.foldl (fun l ev => (on_menu_event ev.2 l ev.1).1) lvl ≤ 300 := by
  induction evs generalizing lvl with
  | nil => exact ⟨h1, h2⟩
  | cons ev rest ih =>
    simp only [List.foldl_cons]
    have h := on_menu_event_level_mem ev.2 lvl ev.1 h1 h2
    exact ih _ h.1 h.2

/-- C1: `set_zoom_factor` clamps the input factor into `[0.5, 3.0]` before
storing it and before applying it: the value passed to `webview.set_zoom`
is `min (max f 0.5) 3.0`, and the stored level is that clamped value
(times 100, truncated to `u64`). -/
theorem set_zoom_factor_clamps (res : Except String Unit) (f : ℚ) :
    set_zoom_factor res f =
      ((Int.floor (min (max f (1/2)) 3 * 100)).toNat, min (max f (1/2)) 3) := by
  simp only [set_zoom_factor, clamp_ite_eq_min_max]

/-- C6: at program start, before any menu event, the zoom factor is exactly
`1.0`: `get_zoom_factor` on the initial atomic content `100` returns `1`. -/
theorem initial_zoom_factor : get_zoom_factor ZOOM_LEVEL_init = 1 := by
  norm_num [get_zoom_factor, ZOOM_LEVEL_init]

/-- C5: only the three zoom identifiers mutate the zoom state — on any other
menu-item identifier the stored level is unchanged and no factor is passed
to `webview.set_zoom`. -/
theorem on_menu_event_frame (res : Except String Unit) (lvl : Nat) (id : String)
    (h1 : id ≠ "zoom_in") (h2 : id ≠ "zoom_out") (h3 : id ≠ "zoom_reset") :
    on_menu_event res lvl id = (lvl, []) := by
  unfold on_menu_event
  rw [if_neg h1, if_neg h2, if_neg h3]

/-- Witness for C5 at the concrete identifier `"quit"` and level `100`. -/
theorem on_menu_event_frame_witness :
    on_menu_event (Except.ok ()) 100 "quit" = (100, []) :=
  on_menu_event_frame (Except.ok ()) 100 "quit" (by decide) (by decide) (by decide)

/-- C7: `set_zoom_factor` never propagates an error, and the stored level is
updated to the clamped value even when `webview.set_zoom` returns an error:
the result is independent of the `Result` of `set_zoom`, which is silently
discarded. -/
theorem set_zoom_factor_error_discarded (e : String) (f : ℚ) :
    (set_zoom_factor (Except.error e) f).1 =
        (Int.floor (min (max f (1/2)) 3 * 100)).toNat ∧
      set_zoom_factor (Except.error e) f = set_zoom_factor (Except.ok ()) f := by
  constructor
  · simp only [set_zoom_factor, clamp_ite_eq_min_max]
  · rfl

/-- C2: the menu-event handler maps each of the three identifiers to its
action — `"zoom_in"` sets the zoom to the current factor plus `0.1`
(clamped), `"zoom_out"` to the current factor minus `0.1` (clamped),
`"zoom_reset"` to `1.0` — and in each case the resulting factor is the one
passed to `webview.set_zoom`. -/
theorem on_menu_event_dispatch (res : Except String Unit) (lvl : Nat) :
    on_menu_event res lvl "zoom_in" =
        ((Int.floor (min (max (get_zoom_factor lvl + 1/10) (1/2)) 3 * 100)).toNat,
          [min (max (get_zoom_factor lvl + 1/10) (1/2)) 3]) ∧
      on_menu_event res lvl "zoom_out" =
        ((Int.floor (min (max (get_zoom_factor lvl - 1/10) (1/2)) 3 * 100)).toNat,
          [min (max (get_zoom_factor lvl - 1/10) (1/2)) 3]) ∧
      on_menu_event res lvl "zoom_reset" = (100, [1]) := by
  refine ⟨?_, ?_, ?_⟩
  · rw [on_menu_event, if_pos rfl]
    simp only [set_zoom_factor, clamp_ite_eq_min_max]
  · rw [on_menu_event, if_neg (by decide), if_pos rfl]
    simp only [set_zoom_factor, clamp_ite_eq_min_max]
  · rw [on_menu_event, if_neg (by decide), if_neg (by decide), if_pos rfl]
    have hc : (if (1 : ℚ) < 1/2 then (1/2 : ℚ) else if 3 < (1 : ℚ) then 3 else 1) = 1 := by
      norm_num
    simp only [set_zoom_factor, hc]
    norm_num
    decide

/-- C3: the zoom factor stays in range — starting from the initial state,
after any sequence of menu events (with any identifiers and any webview
results), `get_zoom_factor` returns a value in `[0.5, 3.0]`. -/
theorem zoom_factor_in_range (evs : List (String × Except String Unit)) :
    1/2 ≤ get_zoom_factor (run_menu_events evs) ∧
      get_zoom_factor (run_menu_events evs) ≤ 3 := by
  have h : 50 ≤ run_menu_events evs ∧ run_menu_events evs ≤ 300 := by
    unfold run_menu_events
    exact foldl_level_mem evs ZOOM_LEVEL_init (by norm_num [ZOOM_LEVEL_init])
      (by norm_num [ZOOM_LEVEL_init])
  unfold get_zoom_factor
  have h1 : (50 : ℚ) ≤ (run_menu_events evs : ℚ) := by exact_mod_cast h.1
  have h2 : (run_menu_events evs : ℚ) ≤ 300 := by exact_mod_cast h.2
  constructor
  · rw [le_div_iff₀ (by norm_num : (0:ℚ) < 100)]; linarith
  · rw [div_le_iff₀ (by norm_num : (0:ℚ) < 100)]; linarith

/-- C4 as stated is false: the store truncates the clamped factor to a whole
number of hundredths, so the round trip is not exact.  At `f = 0.505` the
clamped value is `0.505` but `set_zoom_factor` then `get_zoom_factor`
yields `0.5`. -/
theorem set_get_round_trip_cex :
    get_zoom_factor ((set_zoom_factor (Except.ok ()) (101/200)).1) ≠
      min (max (101/200 : ℚ) (1/2)) 3 := by
  have h1 : (set_zoom_factor (Except.ok ()) (101/200)).1 = 50 := by
    simp only [set_zoom_factor]
    norm_num
    decide
  have h2 : min (max (101/200 : ℚ) (1/2)) 3 = 101/200 := by
    rw [max_eq_left (by norm_num), min_eq_left (by norm_num)]
  rw [h1, h2]
  norm_num [get_zoom_factor]

/-- C4 amended: for every factor `f`, `set_zoom_factor` then
`get_zoom_factor` returns `⌊min (max f 0.5) 3.0 * 100⌋ / 100`, the clamped
value truncated down to a whole number of hundredths (which equals the
clamped value itself exactly when that value is a multiple of `0.01`). -/
theorem set_get_round_trip (res : Except String Unit) (f : ℚ) :
    get_zoom_factor ((set_zoom_factor res f).1) =
      ((Int.floor (min (max f (1/2)) 3 * 100)).toNat : ℚ) / 100 := by
  simp only [get_zoom_factor, set_zoom_factor, clamp_ite_eq_min_max]

/-- C8: the zoom factor is quantised to hundredths — every value returned by
`get_zoom_factor` is `n / 100` for a natural number `n`, and the level
stored by `set_zoom_factor` is the floor of the clamped factor times 100. -/
theorem zoom_factor_quantised (res : Except String Unit) (f : ℚ) (lvl : Nat) :
    (∃ n : ℕ, get_zoom_factor lvl = (n : ℚ) / 100) ∧
      (set_zoom_factor res f).1 = (Int.floor (min (max f (1/2)) 3 * 100)).toNat :=
  ⟨⟨lvl, rfl⟩, by simp only [set_zoom_factor, clamp_ite_eq_min_max]⟩

end Paseo
